import Mathlib

/-!
Verification of the graph-based retrieval engine of IaC-Gen-DSPy.

This file is a shallow embedding of the retrieval core:
- `src/iac_gen_dspy/rag/graph_rag.py` (`GraphRAGStore`): tokenizer,
  resource detector, knowledge-base loader, graph index builder, query engine;
- `src/iac_gen_dspy/rag/store.py` (`RAGStore`): the keyword-store loader;
- `examples/graph_rag_comparison.py` (`keyword_store_retrieve`): the
  keyword-store baseline retrieval.

Strings are modelled as `List Char` (the inputs are ASCII), Python sets as
`Finset`, floats as `ℚ` (the arithmetic of the scoring formula is exact over
the rationals), and `json.loads` results as `Option Record` per line: a
malformed line is `none`.  Python dicts keyed by sequential integer ids are
modelled as lists indexed by position.
-/

set_option maxRecDepth 8000

namespace IacGen

abbrev Str := List Char

/-- Lowercasing, as Python `str.lower` restricted to ASCII
(`Char.toLower` maps exactly the range A-Z). -/
def strLower (s : Str) : Str := s.map Char.toLower

/-- Python whitespace class for `str.strip` / regex `\s` on ASCII text:
space, tab, newline, carriage return, form feed, vertical tab. -/
def isSpaceC (c : Char) : Bool :=
  c = ' ' || c = '\t' || c = '\n' || c = '\x0d' || c = '\x0c' || c = '\x0b'

/-- Python `str.strip`: remove leading and trailing whitespace. -/
def stripC (s : Str) : Str :=
  ((s.dropWhile isSpaceC).reverse.dropWhile isSpaceC).reverse

/-- The character class `[a-zA-Z0-9]` of the token pattern. -/
def isAlnumC (c : Char) : Bool := c.isAlpha || c.isDigit

/-- Regex word character `\w` = `[a-zA-Z0-9_]` (ASCII), for `\b` boundaries. -/
def isWordC (c : Char) : Bool := isAlnumC c || c = '_'

/-- The character class `[a-z0-9_]` of the `aws_[a-z0-9_]+` pattern. -/
def isAwsBodyC (c : Char) : Bool := c.isLower || c.isDigit || c = '_'

/-- The `(?:_[a-zA-Z0-9]+)*` tail of the token pattern
`[a-zA-Z0-9]+(?:_[a-zA-Z0-9]+)*`: greedily consume repetitions of an
underscore followed by an alphanumeric run.  Returns the consumed extension
and the remaining input.  Fuel-driven structural recursion; each step
consumes at least two characters, so fuel = input length suffices. -/
def tokenExt : Nat → Str → Str × Str
  | 0, cs => ([], cs)
  | fuel+1, cs =>
    match cs with
    | '_' :: d :: rest =>
      if isAlnumC d then
        let run := (d :: rest).takeWhile isAlnumC
        let rest1 := (d :: rest).dropWhile isAlnumC
        let e := tokenExt fuel rest1
        ('_' :: (run ++ e.1), e.2)
      else ([], cs)
    | _ => ([], cs)

/-- `re.findall` of the token pattern `[a-zA-Z0-9]+(?:_[a-zA-Z0-9]+)*`:
leftmost, non-overlapping, greedy matches. -/
def scanTokens : Nat → Str → List Str
  | 0, _ => []
  | _+1, [] => []
  | fuel+1, c :: rest =>
    if isAlnumC c then
      let run := (c :: rest).takeWhile isAlnumC
      let rest1 := (c :: rest).dropWhile isAlnumC
      let e := tokenExt rest1.length rest1
      (run ++ e.1) :: scanTokens fuel e.2
    else scanTokens fuel rest

/-- `self._token_pattern.findall(text)`. -/
def tokenize (s : Str) : List Str := scanTokens s.length s

/-- `re.findall(r"aws_[a-z0-9_]+", text)`: leftmost non-overlapping greedy
matches of a literal `aws_` followed by at least one `[a-z0-9_]` character. -/
def scanAws : Nat → Str → List Str
  | 0, _ => []
  | _+1, [] => []
  | fuel+1, c :: rest =>
    match c :: rest with
    | 'a' :: 'w' :: 's' :: '_' :: d :: rest2 =>
      if isAwsBodyC d then
        let run := (d :: rest2).takeWhile isAwsBodyC
        let rest3 := (d :: rest2).dropWhile isAwsBodyC
        ('a' :: 'w' :: 's' :: '_' :: run) :: scanAws fuel rest3
      else scanAws fuel rest
    | _ => scanAws fuel rest

/-- Try to match `resource\s+"([^"]+)"` (IGNORECASE) at the start of the
input; on success return the captured group and the input after the match. -/
def parseResAt (cs : Str) : Option (Str × Str) :=
  if (cs.take 8).map Char.toLower = "resource".toList then
    let rest := cs.drop 8
    if (rest.takeWhile isSpaceC).isEmpty then none
    else
      match rest.dropWhile isSpaceC with
      | '\x22' :: body =>
        let cap := body.takeWhile (fun c => c ≠ '\x22')
        match body.dropWhile (fun c => c ≠ '\x22') with
        | '\x22' :: rest2 => if cap.isEmpty then none else some (cap, rest2)
        | _ => none
      | _ => none
  else none

/-- `self._resource_pattern.findall(iac_code)`: all captures of
`resource\s+"([^"]+)"` (IGNORECASE), leftmost and non-overlapping. -/
def scanRes : Nat → Str → List Str
  | 0, _ => []
  | _+1, [] => []
  | fuel+1, c :: rest =>
    match parseResAt (c :: rest) with
    | some (cap, rest2) => cap :: scanRes fuel rest2
    | none => scanRes fuel rest

/-- The `STOPWORDS` set of `graph_rag.py`. -/
def stopwords : List Str :=
  ["a", "an", "and", "are", "as", "at", "be", "by", "for", "from",
   "has", "he", "in", "is", "it", "its", "of", "on", "that", "the",
   "to", "was", "will", "with", "this", "these", "those", "have",
   "can", "could", "should", "would", "may", "might", "must",
   "create", "using", "use", "set", "get", "make", "do", "does",
   "did", "done", "your", "my", "our", "their", "his", "her"].map String.toList

/-- Python `kw.split('_')` (keeps empty components). -/
def splitU : Str → List Str
  | [] => [[]]
  | c :: rest =>
    if c = '_' then [] :: splitU rest
    else
      match splitU rest with
      | [] => [[c]]
      | t :: ts => (c :: t) :: ts

/-- The shared token filter `len(t) > 2 and t not in STOPWORDS`. -/
def passTok (t : Str) : Bool := t.length > 2 && !(stopwords.contains t)

/-- Underscore expansion of one (already lowercased) term: the term itself
plus, when it contains an underscore, every component that passes the
length/stopword filter.  Shared by `load_graph` (keyword expansion) and
`_extract_prompt_keywords` (token expansion), which use the identical rule. -/
def expandKw (kw : Str) : Finset Str :=
  insert kw ((if kw.contains '_' then (splitU kw).filter passTok else []).toFinset)

/-- `GraphRAGStore._extract_prompt_keywords`: tokenize, lowercase, keep
tokens with `len > 2` not in the stopword set, and add underscore
components under the same filter. -/
def extractPromptKeywords (p : Str) : Finset Str :=
  (tokenize p).toFinset.biUnion (fun tok =>
    let tl := strLower tok
    if passTok tl then expandKw tl else ∅)

/-- The `service_map` of `_detect_prompt_resources`, in source order. -/
def serviceMap : List (Str × Str) :=
  [("s3", "aws_s3_bucket"),
   ("bucket", "aws_s3_bucket"),
   ("ec2", "aws_instance"),
   ("instance", "aws_instance"),
   ("vpc", "aws_vpc"),
   ("subnet", "aws_subnet"),
   ("lambda", "aws_lambda_function"),
   ("function", "aws_lambda_function"),
   ("iam", "aws_iam_role"),
   ("role", "aws_iam_role"),
   ("policy", "aws_iam_policy"),
   ("dynamodb", "aws_dynamodb_table"),
   ("table", "aws_dynamodb_table"),
   ("rds", "aws_db_instance"),
   ("database", "aws_db_instance"),
   ("security group", "aws_security_group"),
   ("sg", "aws_security_group"),
   ("load balancer", "aws_lb"),
   ("alb", "aws_lb"),
   ("elb", "aws_elb"),
   ("route53", "aws_route53_zone"),
   ("dns", "aws_route53_zone"),
   ("cloudwatch", "aws_cloudwatch_log_group"),
   ("sns", "aws_sns_topic"),
   ("sqs", "aws_sqs_queue"),
   ("queue", "aws_sqs_queue"),
   ("elasticbeanstalk", "aws_elastic_beanstalk_environment"),
   ("beanstalk", "aws_elastic_beanstalk_environment"),
   ("ecs", "aws_ecs_cluster"),
   ("fargate", "aws_ecs_service"),
   ("eks", "aws_eks_cluster"),
   ("kubernetes", "aws_eks_cluster")].map
    (fun e => (e.1.toList, e.2.toList))

/-- Does `\b term \b` match at the start of `text`?  Every `service_map`
key begins and ends with a word character, so the boundaries reduce to:
the previous character (tracked by the caller) is a non-word character or
the string start, and the character after the match, if any, is non-word. -/
def wordMatchAt (term text : Str) : Bool :=
  term.isPrefixOf text &&
    (match text.drop term.length with
     | [] => true
     | d :: _ => !isWordC d)

/-- Scan `text` for a `\b term \b` match; `prevWord` says whether the
preceding character was a word character. -/
def cwGo (term : Str) : Str → Bool → Bool
  | [], _ => false
  | c :: rest, prevWord =>
    (!prevWord && wordMatchAt term (c :: rest)) || cwGo term rest (isWordC c)

/-- `re.search(r'\b' + re.escape(term) + r'\b', text)` as a Boolean. -/
def containsWord (term text : Str) : Bool := cwGo term text false

/-- `GraphRAGStore._detect_prompt_resources`: explicit `aws_*` tokens in the
lowercased prompt, plus the canonical resource of every `service_map` key
that occurs as a whole word. -/
def detectPromptResources (p : Str) : Finset Str :=
  let pl := strLower p
  (scanAws pl.length pl).toFinset ∪
    ((serviceMap.filter (fun e => containsWord e.1 pl)).map Prod.snd).toFinset

/-- `GraphRAGStore._extract_resource_types`: captures of the resource
declaration pattern, stripped and lowercased, as a duplicate-free list. -/
def extractResourceTypes (iacCode : Str) : List Str :=
  ((scanRes iacCode.length iacCode).map (fun m => strLower (stripC m))).dedup

/-! ## Data model -/

/-- One knowledge-base record, as produced by `json.loads` on a line of the
JSONL file.  Fields mirror the keys read with `.get`: a missing
`snippet_name` is `none` (the code substitutes a positional default), a
missing `keywords`/`iac_code`/`original_prompt` is modelled by its `.get`
default (`[]` / empty string / empty string). -/
structure Record where
  snippet_name : Option Str
  keywords : List Str
  iac_code : Str
  original_prompt : Str
deriving DecidableEq

/-- The knowledge-base file: absent, or a list of lines where each line is
`some record` if `json.loads` succeeds on it and `none` if it is malformed. -/
inductive KBFile where
  | absent
  | present (lines : List (Option Record))
deriving DecidableEq

/-- The `GraphSnippet` dataclass.  The `keywords` and `resource_types`
Python sets are modelled as duplicate-free lists in construction order
(set iteration order is unobservable in the source: the sets are only used
through membership, set algebra, and `sorted(...)`). -/
structure GraphSnippet where
  snippet_id : Nat
  snippet_name : Str
  keywords : List Str
  resource_types : List Str
  iac_code : Str
  original_prompt : Str
deriving DecidableEq

/-- Graph nodes.  The source uses tagged strings `s:{id}` / `k:{kw}` /
`r:{res}`; the tags make the three kinds disjoint, so an inductive sum is an
isomorphic model. -/
inductive Node where
  | snip (id : Nat)
  | kw (w : Str)
  | res (t : Str)
deriving DecidableEq

/-- The statistics dict returned by `load_graph`. -/
structure Stats where
  snippets : Nat
  keywords : Nat
  resource_types : Nat
  edges : Nat
  avg_snippet_degree : ℚ
deriving DecidableEq

/-- The mutable state of a `GraphRAGStore` instance.  The adjacency
defaultdict is modelled as the set of directed edge pairs (every undirected
edge is stored in both directions, exactly as the two symmetric `add` calls
do); the reverse indices as sets of (token, snippet id) pairs; the
`_snippet_data` dict keyed by the sequential ids 0..n-1 as a list in id
order. -/
structure Store where
  kbFile : KBFile
  graphBuilt : Bool
  graph : Finset (Node × Node)
  snippetData : List GraphSnippet
  kwIndex : Finset (Str × Nat)
  resIndex : Finset (Str × Nat)
  stats : Stats
deriving DecidableEq

/-- A fresh `GraphRAGStore(kb_file)` (in `__init__` the stats dict is empty;
its content is only ever read after a build, so the zero record is an
adequate placeholder). -/
def initStore (file : KBFile) : Store :=
  { kbFile := file, graphBuilt := false, graph := ∅, snippetData := [],
    kwIndex := ∅, resIndex := ∅,
    stats := { snippets := 0, keywords := 0, resource_types := 0, edges := 0,
               avg_snippet_degree := 0 } }

/-! ## Loader and graph builder -/

/-- Python's decimal rounding to an integer, half to even
(`round`'s tie-breaking rule), exactly over ℚ. -/
def rndHalfEven (q : ℚ) : ℤ :=
  let f := ⌊q⌋
  if q - f < 1/2 then f
  else if (1 : ℚ)/2 < q - f then f + 1
  else if f % 2 = 0 then f else f + 1

/-- Python `round(q, d)` over exact rationals. -/
def roundTo (d : Nat) (q : ℚ) : ℚ := (rndHalfEven (q * 10 ^ d) : ℚ) / 10 ^ d

/-- `{kw.strip().lower() for kw in snippet.get("keywords", []) if kw}`,
as a duplicate-free list. -/
def rawKeywords (r : Record) : List Str :=
  ((r.keywords.filter (fun k => !k.isEmpty)).map (fun k => strLower (stripC k))).dedup

/-- Underscore expansion of one normalized keyword, as a list: the keyword
itself plus, when it contains an underscore, the components passing the
filter (same rule the prompt side's `expandKw` applies). -/
def expandKwList (kw : Str) : List Str :=
  kw :: (if kw.contains '_' then (splitU kw).filter passTok else [])

/-- The expanded keyword set stored on a snippet at load time: every
normalized keyword plus the underscore components passing the filter. -/
def snippetKeywords (r : Record) : List Str :=
  ((rawKeywords r).flatMap expandKwList).dedup

/-- Decimal digits of `n`, for the `f"Snippet {snippet_count}"` default. -/
def natStr (n : Nat) : Str := Nat.toDigits 10 n

/-- Construction of the `GraphSnippet` for record `r` at sequential id `i`. -/
def buildSnippet (i : Nat) (r : Record) : GraphSnippet :=
  { snippet_id := i
    snippet_name := r.snippet_name.getD ("Snippet ".toList ++ natStr i)
    keywords := snippetKeywords r
    resource_types := extractResourceTypes r.iac_code
    iac_code := r.iac_code
    original_prompt := r.original_prompt }

/-- The loader loop: one `GraphSnippet` per record, ids assigned by the
running counter. -/
def buildSnips : Nat → List Record → List GraphSnippet
  | _, [] => []
  | i, r :: rs => buildSnippet i r :: buildSnips (i + 1) rs

/-- The directed edge pairs contributed by one snippet: both directions of
snippet-keyword and snippet-resource edges. -/
def snippetEdges (g : GraphSnippet) : Finset (Node × Node) :=
  g.keywords.toFinset.biUnion
    (fun w => {(Node.snip g.snippet_id, Node.kw w), (Node.kw w, Node.snip g.snippet_id)}) ∪
  g.resource_types.toFinset.biUnion
    (fun t => {(Node.snip g.snippet_id, Node.res t), (Node.res t, Node.snip g.snippet_id)})

/-- The adjacency structure accumulated over all snippets. -/
def graphOf (snips : List GraphSnippet) : Finset (Node × Node) :=
  (snips.map snippetEdges).foldr (· ∪ ·) ∅

/-- The `_keyword_to_snippets` reverse index. -/
def kwIndexOf (snips : List GraphSnippet) : Finset (Str × Nat) :=
  (snips.map (fun g => g.keywords.toFinset.image (fun w => (w, g.snippet_id)))).foldr (· ∪ ·) ∅

/-- The `_resource_to_snippets` reverse index. -/
def resIndexOf (snips : List GraphSnippet) : Finset (Str × Nat) :=
  (snips.map (fun g => g.resource_types.toFinset.image (fun t => (t, g.snippet_id)))).foldr (· ∪ ·) ∅

/-- `self._graph.get(node, set())`: the neighbor set of a node. -/
def neighborsOf (g : Finset (Node × Node)) (n : Node) : Finset Node :=
  (g.filter (fun e => e.1 = n)).image Prod.snd

/-- `index.get(token, set())` for a reverse index. -/
def indexLookup (idx : Finset (Str × Nat)) (w : Str) : Finset Nat :=
  (idx.filter (fun e => e.1 = w)).image Prod.snd

/-- The statistics computed at the end of `load_graph`: snippet count,
distinct keyword and resource nodes, undirected edge count (the directed
pair count halved, as `sum(len(neighbors)) // 2` does), and the average
snippet-node degree rounded to 2 decimals. -/
def statsOf (snips : List GraphSnippet) (graph : Finset (Node × Node)) : Stats :=
  let n := snips.length
  let kwNodes := (snips.map (fun g => g.keywords.toFinset)).foldr (· ∪ ·) ∅
  let resNodes := (snips.map (fun g => g.resource_types.toFinset)).foldr (· ∪ ·) ∅
  let degSum := (snips.map (fun g => (neighborsOf graph (Node.snip g.snippet_id)).card)).sum
  { snippets := n
    keywords := kwNodes.card
    resource_types := resNodes.card
    edges := graph.card / 2
    avg_snippet_degree := roundTo 2 (if n = 0 then 0 else (degSum : ℚ) / n) }

/-- The fully built store for a list of successfully parsed records. -/
def buildStore (file : KBFile) (recs : List Record) : Store :=
  let snips := buildSnips 0 recs
  let g := graphOf snips
  { kbFile := file, graphBuilt := true, graph := g, snippetData := snips,
    kwIndex := kwIndexOf snips, resIndex := resIndexOf snips,
    stats := statsOf snips g }

inductive LoadErr where
  | fileNotFound
  | parseErr
deriving DecidableEq

/-- `json.loads` applied to each line in order; the first malformed line
raises, aborting the whole load (there is no try/except around
`json.loads` in `load_graph`). -/
def parseAll : List (Option Record) → Option (List Record)
  | [] => some []
  | none :: _ => none
  | some r :: rest => (parseAll rest).map (r :: ·)

/-- `GraphRAGStore.load_graph`: cached-return when already built, a
`FileNotFoundError` when the KB file is absent, a parse failure when any
line is malformed, and otherwise the built state with its statistics. -/
def loadGraph (s : Store) : Except LoadErr (Stats × Store) :=
  if s.graphBuilt then .ok (s.stats, s)
  else
    match s.kbFile with
    | .absent => .error .fileNotFound
    | .present lines =>
      match parseAll lines with
      | none => .error .parseErr
      | some recs =>
        let s' := buildStore s.kbFile recs
        .ok (s'.stats, s')

/-! ## Query engine -/

/-- `GraphRAGStore._jaccard_similarity` (first argument the snippet side,
second the prompt side). -/
def jaccardSimilarity (a b : Finset Str) : ℚ :=
  if a = ∅ ∨ b = ∅ then 0
  else if 0 < (a ∪ b).card then ((a ∩ b).card : ℚ) / ((a ∪ b).card : ℚ)
  else 0

/-- `GraphRAGStore._overlap_score` (intersection over the prompt side). -/
def overlapScore (a b : Finset Str) : ℚ :=
  if a = ∅ ∨ b = ∅ then 0 else ((a ∩ b).card : ℚ) / (b.card : ℚ)

/-- `GraphRAGStore._connectivity_score`: matched direct neighbors over the
total number of requested prompt keywords and resources. -/
def connectivityScore (g : Finset (Node × Node)) (i : Nat) (pk pr : Finset Str) : ℚ :=
  let nb := neighborsOf g (Node.snip i)
  if nb = ∅ then 0
  else if pk.card + pr.card = 0 then 0
  else
    (((pk.filter (fun w => Node.kw w ∈ nb)).card
      + (pr.filter (fun t => Node.res t ∈ nb)).card : Nat) : ℚ)
      / ((pk.card + pr.card : Nat) : ℚ)

/-- The weighted blend computed per candidate in `query`. -/
def totalScore (g : Finset (Node × Node)) (sn : GraphSnippet) (pk pr : Finset Str) : ℚ :=
  let kwJ := jaccardSimilarity sn.keywords.toFinset pk
  let resJ := jaccardSimilarity sn.resource_types.toFinset pr
  let kwO := overlapScore sn.keywords.toFinset pk
  let resO := overlapScore sn.resource_types.toFinset pr
  let conn := connectivityScore g sn.snippet_id pk pr
  0.5 * (0.6 * kwJ + 0.4 * kwO) + 0.3 * (0.7 * resJ + 0.3 * resO) + 0.2 * conn

/-- One ranked result dict of `query`. -/
structure QueryResult where
  snippet_id : Nat
  snippet_name : Str
  score : ℚ
  keywords : List Str
  resource_types : List Str
  iac_code : Str
  original_prompt : Str
deriving DecidableEq

/-- Insert `a` into `l` before the first element `b` with `le a b`
(the inner step of a stable insertion sort). -/
def insertBy (le : α → α → Bool) (a : α) : List α → List α
  | [] => [a]
  | b :: bs => if le a b then a :: b :: bs else b :: insertBy le a bs

/-- Stable insertion sort: equal elements keep their input order, so on a
list of results it agrees with Python's stable `list.sort`. -/
def sortBy (le : α → α → Bool) : List α → List α
  | [] => []
  | a :: as => insertBy le a (sortBy le as)

/-- Python string `≤` (lexicographic on code points), for `sorted(...)`. -/
def strLe : Str → Str → Bool
  | [], _ => true
  | _ :: _, [] => false
  | a :: as, b :: bs => if a < b then true else if b < a then false else strLe as bs

/-- `sorted(s)` for a set of strings held as a duplicate-free list. -/
def sortedStrs (s : List Str) : List Str := sortBy strLe s

/-- The comparison realizing `sort(key=score, reverse=True)`: `a` may stay
before `b` exactly when `a`'s score is at least `b`'s. -/
def resGe (a b : QueryResult) : Bool := decide (b.score ≤ a.score)

/-- The result dict built for one candidate snippet. -/
def mkResult (g : Finset (Node × Node)) (sn : GraphSnippet) (pk pr : Finset Str) : QueryResult :=
  { snippet_id := sn.snippet_id
    snippet_name := sn.snippet_name
    score := roundTo 4 (totalScore g sn pk pr)
    keywords := sortedStrs sn.keywords
    resource_types := sortedStrs sn.resource_types
    iac_code := sn.iac_code
    original_prompt := sn.original_prompt }

/-- Candidate generation: union of reverse-index hits for the prompt's
keywords and resources, falling back to all snippet ids when empty. -/
def candidateIds (s : Store) (pk pr : Finset Str) : Finset Nat :=
  let c := pk.biUnion (indexLookup s.kwIndex) ∪ pr.biUnion (indexLookup s.resIndex)
  if c = ∅ then Finset.range s.snippetData.length else c

/-- Placeholder for a `_snippet_data` lookup at an id the loader never
assigned (Python would raise a `KeyError`; for stores produced by
`load_graph` every candidate id is in range, so this is unreachable). -/
def defaultSnippet (i : Nat) : GraphSnippet := ⟨i, [], [], [], [], []⟩

/-- The elements of a finite set of ids listed in ascending order (an
auxiliary canonical enumeration; NOT the program's iteration order). -/
def ascElems (c : Finset Nat) : List Nat :=
  (List.range (c.sup id + 1)).filter (fun i => decide (i ∈ c))

/-- The smallest power of two greater than `minused`, starting from the
minimum table size 8 (CPython's `set_table_resize` size computation). -/
def pow2Gt : Nat → Nat → Nat → Nat
  | 0, _, cur => cur
  | fuel+1, minused, cur => if minused < cur then cur else pow2Gt fuel minused (2 * cur)

/-- One growth loop for `pyTableSize`: while the distinct-element count `m`
reaches the resize threshold of the current size `s` (a resize fires at the
insert that makes `fill * 5 ≥ 3 * (s - 1)`), jump to the smallest power of
two above four times the fill at that moment. -/
def pyTableSizeGo : Nat → Nat → Nat → Nat
  | 0, s, _ => s
  | fuel+1, s, m =>
    let f := (3 * (s - 1) + 4) / 5
    if f ≤ m then pyTableSizeGo fuel (pow2Gt (4 * f) (4 * f) 8) m else s

/-- The hash-table size of a CPython set holding `m` distinct small ints
inserted one at a time (`set_add_entry` growth; minimum size 8, then 32,
128, 512, ...).  A bulk `update()` can pre-reserve a different size when
the running fill plus the merged set's size crosses the threshold; that
path depends on the merge order, which the source leaves undetermined (it
iterates a string-keyed set, whose order is hash-randomized), so this model
fixes the element-at-a-time sequence. -/
def pyTableSize (m : Nat) : Nat := pyTableSizeGo (m + 1) 8 m

/-- The iteration order of a CPython set of small nonnegative ints: the
table is scanned by slot index, and an int `i` occupies slot
`i mod tableSize` when no collision occurs, so iteration is ascending in
`i mod tableSize` — NOT insertion order in general (e.g. the set `{5, 12}`
iterates as `[12, 5]` with table size 8).  When two ids collide modulo the
table size, CPython's layout additionally depends on the insertion
sequence, which the source leaves undetermined; the model then orders a
slot's ids ascending.  Exact whenever all ids are distinct modulo the
table size and no bulk pre-reserve occurred. -/
def pyIterList (c : Finset Nat) : List Nat :=
  let s := pyTableSize c.card
  sortBy (fun a b => decide (a % s ≤ b % s)) (ascElems c)

/-- The ranking body of `GraphRAGStore.query` on a built store, for a given
enumeration `cand` of the candidate id set: score every candidate in that
order, sort stably by descending score, keep the first `max 1 top_k`. -/
def queryRanked (s : Store) (pk pr : Finset Str) (cand : List Nat) (k : ℤ) : List QueryResult :=
  let ranked := cand.map (fun i => mkResult s.graph (s.snippetData.getD i (defaultSnippet i)) pk pr)
  (sortBy resGe ranked).take (max 1 k).toNat

/-- `GraphRAGStore.query` run on a built store: the candidate set is
iterated in CPython's set order. -/
def queryBuilt (s : Store) (p : Str) (k : ℤ) : List QueryResult :=
  let pk := extractPromptKeywords p
  let pr := detectPromptResources p
  queryRanked s pk pr (pyIterList (candidateIds s pk pr)) k

/-- `GraphRAGStore.query` with its lazy-load preamble, threading the store
state: the only statement of `query` that can mutate the store is the
implicit `load_graph` call (the body reads the graph and the indices with
non-mutating `.get` lookups only). -/
def queryS (s : Store) (p : Str) (k : ℤ) : Except LoadErr (List QueryResult × Store) :=
  if s.graphBuilt then .ok (queryBuilt s p k, s)
  else
    match loadGraph s with
    | .error e => .error e
    | .ok (_, s') => .ok (queryBuilt s' p k, s')

/-! ## Keyword store (baseline) -/

/-- The state of a `RAGStore` instance: its source and the memo cache. -/
structure KWStore where
  kbFile : KBFile
  cache : Option (List Record)
deriving DecidableEq

/-- The hardcoded snippet `RAGStore.load_snippets` falls back to when the
knowledge-base file is absent (its dict has no `original_prompt` key, which
reads back as the `.get` default). -/
def fallbackRecord : Record :=
  { snippet_name := some ("Fallback EC2 Example").toList
    keywords := [("ec2").toList, ("instance").toList]
    iac_code := ("resource \x22aws_instance\x22 \x22fallback\x22 \x7b\n  ami = \x22ami-0abcdef1234567890\x22\n  instance_type = \x22t2.micro\x22\n\x7d").toList
    original_prompt := [] }

/-- `RAGStore.load_snippets`: cached result if any; the single hardcoded
record when the file is absent; otherwise every line that parses, with
malformed lines skipped (the `json.loads` there sits in a try/except that
logs and continues). -/
def loadSnippets (s : KWStore) : List Record × KWStore :=
  match s.cache with
  | some sn => (sn, s)
  | none =>
    match s.kbFile with
    | .absent => ([fallbackRecord], { s with cache := some [fallbackRecord] })
    | .present lines =>
      let sn := lines.filterMap id
      (sn, { s with cache := some sn })

/-- One result dict of `keyword_store_retrieve` in
`examples/graph_rag_comparison.py`. -/
structure KWResult where
  snippet_id : Nat
  snippet_name : Str
  keywords : List Str
  resource_types : List Str
  iac_code : Str
  score : ℚ
deriving DecidableEq

/-- Is `pat` a contiguous substring of `text` (Python `pat in text`)? -/
def isSubstr (pat : Str) : Str → Bool
  | [] => pat.isEmpty
  | c :: t => pat.isPrefixOf (c :: t) || isSubstr pat t

/-- `detect_resources` of the comparison script: the set of `aws_*`
identifiers in the lowercased text (a duplicate-free list), empty for empty
text. -/
def detectResources (text : Str) : List Str :=
  if text.isEmpty then []
  else (scanAws (strLower text).length (strLower text)).dedup

/-- The match entry built for one snippet by `keyword_store_retrieve`, if
any: skipped when the lowercased keyword list is empty or no keyword is a
substring of the lowercased prompt; the matched count is the size of the
set of matching keywords, the denominator the (duplicate-counting) keyword
list length guarded by `max(..., 1)`.  (In our typed model every keyword is
a string, so the `isinstance(kw, str)` filter keeps everything.) -/
def kwEntry (i : Nat) (r : Record) (pl : Str) : Option KWResult :=
  let kws := r.keywords.map strLower
  if kws.isEmpty then none
  else
    let matched := (kws.filter (fun kw => isSubstr kw pl)).dedup
    if matched.isEmpty then none
    else some
      { snippet_id := i
        snippet_name := r.snippet_name.getD ("Snippet ".toList ++ natStr i)
        keywords := kws
        resource_types := sortedStrs (detectResources r.iac_code)
        iac_code := r.iac_code
        score := (matched.length : ℚ) / ((max kws.length 1 : Nat) : ℚ) }

/-- The enumerate loop of `keyword_store_retrieve`. -/
def buildMatches : Nat → List Record → Str → List KWResult
  | _, [], _ => []
  | i, r :: rs, pl =>
    match kwEntry i r pl with
    | some e => e :: buildMatches (i + 1) rs pl
    | none => buildMatches (i + 1) rs pl

/-- The zero-score fallback entry built from the first snippet (note the
source keeps the original, un-lowercased keyword list here). -/
def kwFallbackEntry (r : Record) : KWResult :=
  { snippet_id := 0
    snippet_name := r.snippet_name.getD ("Snippet 0").toList
    keywords := r.keywords
    resource_types := sortedStrs (detectResources r.iac_code)
    iac_code := r.iac_code
    score := 0 }

/-- The stable descending comparison for keyword-store results. -/
def kwGe (a b : KWResult) : Bool := decide (b.score ≤ a.score)

/-- `keyword_store_retrieve(store, prompt_text, top_k)` given the loaded
snippet list. -/
def keywordStoreRetrieve (snippets : List Record) (p : Str) (k : ℤ) : List KWResult :=
  let pl := strLower p
  let ms := buildMatches 0 snippets pl
  let ms2 :=
    match ms, snippets with
    | [], r :: _ => [kwFallbackEntry r]
    | _, _ => ms
  (sortBy kwGe ms2).take (max 1 k).toNat

/-! ## Concrete instances used by counterexamples and witnesses -/

/-- The knowledge-base record of the spec's literal example: keywords
s3/bucket/versioning, code declaring an `aws_s3_bucket`. -/
def recC2 : Record :=
  { snippet_name := some ("S3 bucket with versioning").toList
    keywords := [("s3").toList, ("bucket").toList, ("versioning").toList]
    iac_code := ("resource \x22aws_s3_bucket\x22 \x22b\x22 \x7b\n  versioning \x7b enabled = true \x7d\n\x7d").toList
    original_prompt := ("Create an S3 bucket with versioning").toList }

/-- The query prompt of the spec's literal example. -/
def promptC2 : Str := ("Create an S3 bucket with versioning").toList

/-- The store built from the one-snippet knowledge base of the example. -/
def sC2 : Store := buildStore (KBFile.present [some recC2]) [recC2]

/-- A record carrying the compound keyword of the underscore-expansion
property. -/
def recLB : Record :=
  { snippet_name := some ("ALB example").toList
    keywords := [("load_balancer").toList]
    iac_code := ("resource \x22aws_lb\x22 \x22this\x22 \x7b\x7d").toList
    original_prompt := [] }

/-- An already-built store state (used to instantiate theorems whose
hypothesis is a completed load). -/
def sBuilt : Store :=
  { kbFile := KBFile.absent, graphBuilt := true, graph := ∅,
    snippetData := [defaultSnippet 0],
    kwIndex := ∅, resIndex := ∅,
    stats := { snippets := 1, keywords := 0, resource_types := 0, edges := 0,
               avg_snippet_degree := 0 } }

/-- A built store with two snippets at ids 0 and 1 (tie-breaking instance:
both have no keywords, so all scores coincide). -/
def sTwo : Store :=
  { kbFile := KBFile.absent, graphBuilt := true, graph := ∅,
    snippetData := [defaultSnippet 0, defaultSnippet 1],
    kwIndex := ∅, resIndex := ∅,
    stats := { snippets := 2, keywords := 0, resource_types := 0, edges := 0,
               avg_snippet_degree := 0 } }

/-- A line list whose second line is malformed. -/
def linesMal : List (Option Record) := [some recLB, none]

/-- A record whose only keyword is `ec2` (keyword-store instance). -/
def recKW : Record :=
  { snippet_name := some ("EC2 example").toList
    keywords := [("ec2").toList]
    iac_code := ("resource \x22aws_instance\x22 \x22i\x22 \x7b\x7d").toList
    original_prompt := [] }

/-- A record carrying the keyword `alpha` and no code (tie instance). -/
def recTie : Record :=
  { snippet_name := some ("Tie").toList
    keywords := [("alpha").toList]
    iac_code := []
    original_prompt := [] }

/-- A record carrying only the keyword `filler` (padding for the tie
instance). -/
def recFill : Record :=
  { snippet_name := some ("Filler").toList
    keywords := [("filler").toList]
    iac_code := []
    original_prompt := [] }

/-- A 13-record knowledge base whose snippets 5 and 12 share the keyword
`alpha`: the candidate set `{5, 12}` of an `alpha` prompt iterates as
`[12, 5]` in a size-8 hash table (12 mod 8 = 4 precedes slot 5). -/
def kbC7 : List Record :=
  [recFill, recFill, recFill, recFill, recFill, recTie,
   recFill, recFill, recFill, recFill, recFill, recFill, recTie]

/-- The store built from that 13-record knowledge base. -/
def sC7 : Store := buildStore (KBFile.present (kbC7.map some)) kbC7

/-- The prompt matching exactly the shared keyword of snippets 5 and 12. -/
def pTie : Str := ("alpha").toList

/-! ## Lemmas on the stable insertion sort -/

theorem length_insertBy {α : Type} (le : α → α → Bool) (a : α) (l : List α) :
    (insertBy le a l).length = l.length + 1 := by
  induction l with
  | nil => rfl
  | cons b bs ih =>
    by_cases h : le a b
    · simp [insertBy, h]
    · simp [insertBy, h, ih]

theorem length_sortBy {α : Type} (le : α → α → Bool) (l : List α) :
    (sortBy le l).length = l.length := by
  induction l with
  | nil => rfl
  | cons a as ih => simp [sortBy, length_insertBy, ih]

theorem mem_insertBy {α : Type} (le : α → α → Bool) (a x : α) (l : List α) :
    x ∈ insertBy le a l ↔ x = a ∨ x ∈ l := by
  induction l with
  | nil => simp [insertBy]
  | cons b bs ih =>
    simp only [insertBy]
    by_cases h : le a b
    · rw [if_pos h]
      simp [List.mem_cons]
    · rw [if_neg h]
      simp [List.mem_cons, ih]
      tauto

theorem mem_sortBy {α : Type} (le : α → α → Bool) (x : α) (l : List α) :
    x ∈ sortBy le l ↔ x ∈ l := by
  induction l with
  | nil => simp [sortBy]
  | cons a as ih => simp [sortBy, mem_insertBy, ih, List.mem_cons]

theorem pairwise_insertBy {α : Type} {le : α → α → Bool}
    (htrans : ∀ a b c : α, le a b = true → le b c = true → le a c = true)
    (htot : ∀ a b : α, le a b = true ∨ le b a = true)
    (a : α) (l : List α) (hl : l.Pairwise (fun x y => le x y = true)) :
    (insertBy le a l).Pairwise (fun x y => le x y = true) := by
  induction l with
  | nil => simp [insertBy]
  | cons b bs ih =>
    rw [List.pairwise_cons] at hl
    obtain ⟨hb, hbs⟩ := hl
    simp only [insertBy]
    by_cases h : le a b
    · rw [if_pos h]
      refine List.Pairwise.cons ?_ (List.Pairwise.cons hb hbs)
      intro y hy
      rcases List.mem_cons.mp hy with rfl | hy'
      · exact h
      · exact htrans a b y h (hb y hy')
    · rw [if_neg h]
      refine List.Pairwise.cons ?_ (ih hbs)
      intro y hy
      rcases (mem_insertBy le a y bs).mp hy with rfl | hy'
      · rcases htot y b with h' | h'
        · exact absurd h' h
        · exact h'
      · exact hb y hy'

theorem pairwise_sortBy {α : Type} {le : α → α → Bool}
    (htrans : ∀ a b c : α, le a b = true → le b c = true → le a c = true)
    (htot : ∀ a b : α, le a b = true ∨ le b a = true)
    (l : List α) : (sortBy le l).Pairwise (fun x y => le x y = true) := by
  induction l with
  | nil => simp [sortBy]
  | cons a as ih => exact pairwise_insertBy htrans htot a _ ih

/-! ## Lemmas on candidate enumeration -/

theorem mem_ascElems (c : Finset Nat) (i : Nat) : i ∈ ascElems c ↔ i ∈ c := by
  simp only [ascElems, List.mem_filter, List.mem_range, decide_eq_true_eq]
  constructor
  · rintro ⟨-, h⟩
    exact h
  · intro h
    refine ⟨?_, h⟩
    have h2 : i ≤ c.sup id := Finset.le_sup (f := id) h
    omega

theorem mem_pyIterList (c : Finset Nat) (i : Nat) : i ∈ pyIterList c ↔ i ∈ c := by
  simp only [pyIterList]
  rw [mem_sortBy, mem_ascElems]

theorem pyIterList_ne_nil {c : Finset Nat} (h : c.Nonempty) : pyIterList c ≠ [] := by
  obtain ⟨i, hi⟩ := h
  exact List.ne_nil_of_mem ((mem_pyIterList c i).mpr hi)

theorem candidateIds_nonempty (s : Store) (pk pr : Finset Str)
    (hne : s.snippetData ≠ []) : (candidateIds s pk pr).Nonempty := by
  simp only [candidateIds]
  by_cases hc : pk.biUnion (indexLookup s.kwIndex) ∪ pr.biUnion (indexLookup s.resIndex) = ∅
  · rw [if_pos hc]
    refine ⟨0, Finset.mem_range.mpr ?_⟩
    exact List.length_pos.mpr hne
  · rw [if_neg hc]
    exact Finset.nonempty_iff_ne_empty.mpr hc

theorem resGe_trans (a b c : QueryResult) (hab : resGe a b = true) (hbc : resGe b c = true) :
    resGe a c = true := by
  simp only [resGe, decide_eq_true_eq] at *
  exact le_trans hbc hab

theorem resGe_total (a b : QueryResult) : resGe a b = true ∨ resGe b a = true := by
  simp only [resGe, decide_eq_true_eq]
  exact le_total b.score a.score

/-- C1: on a loaded knowledge base with at least one snippet, `query`
returns at least one result and at most `max 1 top_k` results, sorted by
non-increasing score (the empty-candidate fallback to all snippets makes
the result list non-empty for every prompt). -/
theorem C1_query_bounds (s : Store) (p : Str) (k : ℤ) (hne : s.snippetData ≠ []) :
    1 ≤ (queryBuilt s p k).length ∧
    (queryBuilt s p k).length ≤ (max 1 k).toNat ∧
    (queryBuilt s p k).Pairwise (fun a b => b.score ≤ a.score) := by
  simp only [queryBuilt, queryRanked]
  refine ⟨?_, ?_, ?_⟩
  · rw [List.length_take, length_sortBy, List.length_map]
    have h1 : 1 ≤ (max 1 k).toNat := by
      have h := le_max_left 1 k
      omega
    have h2 : pyIterList (candidateIds s (extractPromptKeywords p) (detectPromptResources p)) ≠ [] :=
      pyIterList_ne_nil (candidateIds_nonempty s _ _ hne)
    have h3 := List.length_pos.mpr h2
    omega
  · rw [List.length_take]
    exact min_le_left _ _
  · refine List.Pairwise.sublist (List.take_sublist _ _) ?_
    refine (pairwise_sortBy resGe_trans resGe_total _).imp ?_
    intro a b h
    simpa [resGe] using h

/-- Witness for C1 at a concrete one-snippet store. -/
theorem C1_query_bounds_w :
    sBuilt.snippetData ≠ [] ∧
    (1 ≤ (queryBuilt sBuilt [] (3 : ℤ)).length ∧
      (queryBuilt sBuilt [] (3 : ℤ)).length ≤ (max 1 (3 : ℤ)).toNat ∧
      (queryBuilt sBuilt [] (3 : ℤ)).Pairwise (fun a b => b.score ≤ a.score)) :=
  ⟨by decide, C1_query_bounds sBuilt [] (3 : ℤ) (by decide)⟩

/-! ## Load and query state behavior -/

theorem parseAll_of_mem_none {lines : List (Option Record)} (h : none ∈ lines) :
    parseAll lines = none := by
  induction lines with
  | nil => cases h
  | cons hd tl ih =>
    cases hd with
    | none => rfl
    | some r =>
      rcases List.mem_cons.mp h with h' | h'
      · cases h'
      · simp [parseAll, ih h']

/-- C5: a second `load_graph` call on the state left by a successful first
call returns exactly the cached statistics of the first call and the very
same store state (no rebuilding). -/
theorem C5_load_idempotent (s s' : Store) (st : Stats)
    (h : loadGraph s = .ok (st, s')) : loadGraph s' = .ok (st, s') := by
  by_cases hb : s.graphBuilt
  · rw [loadGraph, if_pos hb] at h
    obtain ⟨h1, h2⟩ := Prod.mk.injEq .. ▸ (Except.ok.injEq .. ▸ h :)
    subst h2
    rw [loadGraph, if_pos hb, h1]
  · rw [loadGraph, if_neg hb] at h
    split at h
    · cases h
    · split at h
      · cases h
      · rename_i recs hp
        obtain ⟨h1, h2⟩ := Prod.mk.injEq .. ▸ (Except.ok.injEq .. ▸ h :)
        subst h2
        have hb' : (buildStore s.kbFile recs).graphBuilt = true := rfl
        rw [loadGraph, if_pos hb', h1]

/-- Witness for C5 at a concrete already-built store. -/
theorem C5_load_idempotent_w :
    loadGraph sBuilt = .ok (sBuilt.stats, sBuilt) ∧
    loadGraph sBuilt = .ok (sBuilt.stats, sBuilt) :=
  ⟨rfl, C5_load_idempotent sBuilt sBuilt sBuilt.stats rfl⟩

/-- C6: when the knowledge-base file is absent, the graph engine's load
surfaces a file-not-found failure, while the keyword-store baseline
succeeds and returns exactly the single hardcoded fallback record. -/
theorem C6_absent_split (s : Store) (hb : s.graphBuilt = false)
    (hf : s.kbFile = KBFile.absent)
    (t : KWStore) (hc : t.cache = none) (ht : t.kbFile = KBFile.absent) :
    loadGraph s = .error .fileNotFound ∧ (loadSnippets t).1 = [fallbackRecord] := by
  constructor
  · rw [loadGraph, if_neg (by rw [hb]; exact Bool.false_ne_true), hf]
  · rw [loadSnippets, hc, ht]

/-- Witness for C6 at fresh stores over an absent file. -/
theorem C6_absent_split_w :
    loadGraph (initStore KBFile.absent) = .error .fileNotFound ∧
    (loadSnippets { kbFile := KBFile.absent, cache := none }).1 = [fallbackRecord] :=
  C6_absent_split (initStore KBFile.absent) rfl rfl
    { kbFile := KBFile.absent, cache := none } rfl rfl

/-- C4 counterexample: the graph engine's loader does NOT skip a malformed
record — `load_graph` on a knowledge base whose only line fails to parse
aborts with a parse failure instead of continuing. -/
theorem C4_malformed_cex :
    loadGraph (initStore (KBFile.present [none])) = .error .parseErr := rfl

/-- C4 amended: only the keyword store's loader skips malformed records and
keeps the remaining ones; the graph engine's loader aborts with a parse
failure as soon as any line is malformed. -/
theorem C4_malformed_amended (lines : List (Option Record)) (hmal : none ∈ lines)
    (t : KWStore) (hc : t.cache = none) (ht : t.kbFile = KBFile.present lines)
    (s : Store) (hb : s.graphBuilt = false) (hf : s.kbFile = KBFile.present lines) :
    (loadSnippets t).1 = lines.filterMap id ∧ loadGraph s = .error .parseErr := by
  constructor
  · rw [loadSnippets, hc, ht]
  · rw [loadGraph, if_neg (by rw [hb]; exact Bool.false_ne_true), hf]
    split
    · rename_i heq
      cases heq
    · rename_i lines2 heq
      cases heq
      rw [parseAll_of_mem_none hmal]

/-- Witness for C4 (amended) at a two-line file with one malformed line. -/
theorem C4_malformed_amended_w :
    (loadSnippets { kbFile := KBFile.present linesMal, cache := none }).1 =
      linesMal.filterMap id ∧
    loadGraph (initStore (KBFile.present linesMal)) = .error .parseErr :=
  C4_malformed_amended linesMal (by decide)
    { kbFile := KBFile.present linesMal, cache := none } rfl rfl
    (initStore (KBFile.present linesMal)) rfl rfl

/-- C10: once the graph is built, `query` is read-only — it returns the
ranked results and leaves every component of the store state (graph,
snippet data, reverse indices, cached statistics, built flag) identical,
so consecutive queries observe the same state. -/
theorem C10_query_readonly (s : Store) (p : Str) (k : ℤ)
    (hb : s.graphBuilt = true) :
    queryS s p k = .ok (queryBuilt s p k, s) := by
  rw [queryS, if_pos hb]

/-- Witness for C10 at a concrete built store. -/
theorem C10_query_readonly_w :
    queryS sBuilt [] (2 : ℤ) = .ok (queryBuilt sBuilt [] (2 : ℤ), sBuilt) :=
  C10_query_readonly sBuilt [] (2 : ℤ) rfl

/-! ## Score bounds -/

theorem jaccard_bounds (a b : Finset Str) :
    0 ≤ jaccardSimilarity a b ∧ jaccardSimilarity a b ≤ 1 := by
  rw [jaccardSimilarity]
  split
  · norm_num
  · split
    · rename_i h1 h2
      constructor
      · positivity
      · rw [div_le_one (by exact_mod_cast h2)]
        exact_mod_cast Finset.card_le_card Finset.inter_subset_union
    · norm_num

theorem overlap_bounds (a b : Finset Str) :
    0 ≤ overlapScore a b ∧ overlapScore a b ≤ 1 := by
  rw [overlapScore]
  split
  · norm_num
  · rename_i h1
    push_neg at h1
    have hb : 0 < b.card :=
      Finset.card_pos.mpr (Finset.nonempty_iff_ne_empty.mpr h1.2)
    constructor
    · positivity
    · rw [div_le_one (by exact_mod_cast hb)]
      exact_mod_cast Finset.card_le_card Finset.inter_subset_right

theorem connectivity_bounds (g : Finset (Node × Node)) (i : Nat) (pk pr : Finset Str) :
    0 ≤ connectivityScore g i pk pr ∧ connectivityScore g i pk pr ≤ 1 := by
  simp only [connectivityScore]
  split
  · norm_num
  · split
    · norm_num
    · rename_i h1 h2
      have htot : 0 < pk.card + pr.card := Nat.pos_of_ne_zero h2
      constructor
      · positivity
      · rw [div_le_one (by exact_mod_cast htot)]
        have hk := Finset.card_filter_le pk (fun w => Node.kw w ∈ neighborsOf g (Node.snip i))
        have hr := Finset.card_filter_le pr (fun t => Node.res t ∈ neighborsOf g (Node.snip i))
        exact_mod_cast Nat.add_le_add hk hr

/-- C3: every sub-score (keyword/resource Jaccard, keyword/resource
overlap, connectivity) lies in [0,1], and so does the weighted total
0.5*(0.6*kwJ + 0.4*kwO) + 0.3*(0.7*resJ + 0.3*resO) + 0.2*conn. -/
theorem C3_score_bounds (g : Finset (Node × Node)) (sn : GraphSnippet) (pk pr : Finset Str) :
    (0 ≤ jaccardSimilarity sn.keywords.toFinset pk ∧
      jaccardSimilarity sn.keywords.toFinset pk ≤ 1) ∧
    (0 ≤ overlapScore sn.keywords.toFinset pk ∧
      overlapScore sn.keywords.toFinset pk ≤ 1) ∧
    (0 ≤ jaccardSimilarity sn.resource_types.toFinset pr ∧
      jaccardSimilarity sn.resource_types.toFinset pr ≤ 1) ∧
    (0 ≤ overlapScore sn.resource_types.toFinset pr ∧
      overlapScore sn.resource_types.toFinset pr ≤ 1) ∧
    (0 ≤ connectivityScore g sn.snippet_id pk pr ∧
      connectivityScore g sn.snippet_id pk pr ≤ 1) ∧
    (0 ≤ totalScore g sn pk pr ∧ totalScore g sn pk pr ≤ 1) := by
  obtain ⟨h1a, h1b⟩ := jaccard_bounds sn.keywords.toFinset pk
  obtain ⟨h2a, h2b⟩ := overlap_bounds sn.keywords.toFinset pk
  obtain ⟨h3a, h3b⟩ := jaccard_bounds sn.resource_types.toFinset pr
  obtain ⟨h4a, h4b⟩ := overlap_bounds sn.resource_types.toFinset pr
  obtain ⟨h5a, h5b⟩ := connectivity_bounds g sn.snippet_id pk pr
  refine ⟨⟨h1a, h1b⟩, ⟨h2a, h2b⟩, ⟨h3a, h3b⟩, ⟨h4a, h4b⟩, ⟨h5a, h5b⟩, ?_, ?_⟩
  · simp only [totalScore]
    linarith
  · simp only [totalScore]
    linarith

/-! ## Underscore expansion and candidate membership -/

theorem mem_foldr_union {β : Type} [DecidableEq β] (l : List (Finset β)) (x : β) :
    x ∈ l.foldr (· ∪ ·) ∅ ↔ ∃ t ∈ l, x ∈ t := by
  induction l with
  | nil => simp
  | cons hd tl ih =>
    simp only [List.foldr, Finset.mem_union, ih, List.mem_cons]
    constructor
    · rintro (hx | ⟨t, ht, hx⟩)
      · exact ⟨hd, Or.inl rfl, hx⟩
      · exact ⟨t, Or.inr ht, hx⟩
    · rintro ⟨t, ht | ht, hx⟩
      · subst ht; exact Or.inl hx
      · exact Or.inr ⟨t, ht, hx⟩

theorem buildSnips_get (recs : List Record) (j i : Nat) (r : Record)
    (h : recs.get? i = some r) :
    (buildSnips j recs).get? i = some (buildSnippet (j + i) r) := by
  induction recs generalizing i j with
  | nil => cases h
  | cons hd tl ih =>
    cases i with
    | zero =>
      injection h with h2
      subst h2
      rfl
    | succ n =>
      have h' : tl.get? n = some r := h
      have hrec := ih (j + 1) n h'
      have harith : j + 1 + n = j + (n + 1) := by omega
      rw [harith] at hrec
      simpa [buildSnips] using hrec

theorem snippetKeywords_mem_balancer (r : Record)
    (hkw : ("load_balancer").toList ∈ r.keywords) :
    ("balancer").toList ∈ snippetKeywords r := by
  rw [snippetKeywords, List.mem_dedup, List.mem_flatMap]
  refine ⟨("load_balancer").toList, ?_, by decide⟩
  rw [rawKeywords, List.mem_dedup, List.mem_map]
  refine ⟨("load_balancer").toList, ?_, by decide⟩
  rw [List.mem_filter]
  exact ⟨hkw, by decide⟩

/-- C8: a snippet carrying the keyword `load_balancer` is indexed under the
component `balancer` by the loader's underscore expansion, so any prompt
whose extracted keywords contain `balancer` puts that snippet into the
query's candidate set. -/
theorem C8_underscore_expansion (file : KBFile) (recs : List Record) (i : Nat) (r : Record)
    (hget : recs.get? i = some r) (hkw : ("load_balancer").toList ∈ r.keywords)
    (p : Str) (hp : ("balancer").toList ∈ extractPromptKeywords p) :
    i ∈ candidateIds (buildStore file recs)
      (extractPromptKeywords p) (detectPromptResources p) := by
  have hsget : (buildSnips 0 recs).get? i = some (buildSnippet i r) := by
    have hb := buildSnips_get recs 0 i r hget
    simpa using hb
  have hmem : buildSnippet i r ∈ buildSnips 0 recs := List.get?_mem hsget
  have hidx : ((("balancer").toList, i) : Str × Nat) ∈ (buildStore file recs).kwIndex := by
    show (("balancer").toList, i) ∈ kwIndexOf (buildSnips 0 recs)
    rw [kwIndexOf, mem_foldr_union]
    refine ⟨(buildSnippet i r).keywords.toFinset.image
      (fun w => (w, (buildSnippet i r).snippet_id)), List.mem_map_of_mem _ hmem, ?_⟩
    rw [Finset.mem_image]
    refine ⟨("balancer").toList, ?_, rfl⟩
    rw [List.mem_toFinset]
    exact snippetKeywords_mem_balancer r hkw
  have hlook : i ∈ indexLookup (buildStore file recs).kwIndex ("balancer").toList := by
    rw [indexLookup, Finset.mem_image]
    exact ⟨(("balancer").toList, i), Finset.mem_filter.mpr ⟨hidx, rfl⟩, rfl⟩
  have hc : i ∈ (extractPromptKeywords p).biUnion (indexLookup (buildStore file recs).kwIndex) ∪
      (detectPromptResources p).biUnion (indexLookup (buildStore file recs).resIndex) :=
    Finset.mem_union_left _ (Finset.mem_biUnion.mpr ⟨_, hp, hlook⟩)
  simp only [candidateIds]
  rw [if_neg (Finset.ne_empty_of_mem hc)]
  exact hc

/-- Witness for C8: a one-snippet store with keyword `load_balancer` and
the prompt `deploy the balancer`. -/
theorem C8_underscore_expansion_w :
    0 ∈ candidateIds (buildStore (KBFile.present [some recLB]) [recLB])
      (extractPromptKeywords ("deploy the balancer").toList)
      (detectPromptResources ("deploy the balancer").toList) :=
  C8_underscore_expansion (KBFile.present [some recLB]) [recLB] 0 recLB rfl (by decide)
    (("deploy the balancer").toList) (by decide)

/-! ## Keyword-store baseline -/

theorem take_one_of_le {α : Type} (n : Nat) (hn : 1 ≤ n) (a : α) :
    List.take n [a] = [a] := by
  cases n with
  | zero => omega
  | succ m => simp

theorem buildMatches_mem (snippets : List Record) (pl : Str) (j i : Nat) (r : Record)
    (e : KWResult) (hget : snippets.get? i = some r)
    (he : kwEntry (j + i) r pl = some e) :
    e ∈ buildMatches j snippets pl := by
  induction snippets generalizing j i with
  | nil => cases hget
  | cons hd tl ih =>
    cases i with
    | zero =>
      injection hget with h2
      subst h2
      simp only [buildMatches]
      rw [show j + 0 = j from rfl] at he
      rw [he]
      exact List.mem_cons_self _ _
    | succ n =>
      have h' : tl.get? n = some r := hget
      have he' : kwEntry (j + 1 + n) r pl = some e := by
        have harith : j + 1 + n = j + (n + 1) := by omega
        rw [harith]
        exact he
      have hrec := ih (j + 1) n h' he'
      simp only [buildMatches]
      split
      · exact List.mem_cons_of_mem _ hrec
      · exact hrec

/-- C9: in the keyword-store baseline, every snippet with a non-empty
keyword list and at least one keyword occurring as a substring of the
lowercased prompt gets a match entry scored
matched-count / total-keyword-count, and when no snippet matches at all the
retrieval returns exactly the first-loaded snippet with score 0. -/
theorem C9_keyword_baseline (snippets : List Record) (p : Str) (k : ℤ) :
    (∀ (i : Nat) (r : Record), snippets.get? i = some r →
      r.keywords.map strLower ≠ [] →
      (∃ kw ∈ r.keywords.map strLower, isSubstr kw (strLower p) = true) →
      ∃ e ∈ buildMatches 0 snippets (strLower p),
        e.snippet_id = i ∧
        e.score = (((r.keywords.map strLower).filter
            (fun kw => isSubstr kw (strLower p))).dedup.length : ℚ) /
          ((r.keywords.map strLower).length : ℚ)) ∧
    (∀ (r₀ : Record) (rest : List Record), snippets = r₀ :: rest →
      buildMatches 0 snippets (strLower p) = [] →
      keywordStoreRetrieve snippets p k = [kwFallbackEntry r₀] ∧
        (kwFallbackEntry r₀).score = 0) := by
  constructor
  · intro i r hget hne hmatch
    have hkE : (r.keywords.map strLower).isEmpty = false := by
      simpa [List.isEmpty_iff] using hne
    obtain ⟨kw0, hkw0, hsub0⟩ := hmatch
    have hmne : ((r.keywords.map strLower).filter
        (fun kw => isSubstr kw (strLower p))).dedup ≠ [] :=
      List.ne_nil_of_mem (List.mem_dedup.mpr (List.mem_filter.mpr ⟨hkw0, hsub0⟩))
    have hmE : ((r.keywords.map strLower).filter
        (fun kw => isSubstr kw (strLower p))).dedup.isEmpty = false := by
      simpa [List.isEmpty_iff] using hmne
    have he : kwEntry i r (strLower p) = some
        { snippet_id := i
          snippet_name := r.snippet_name.getD (("Snippet ").toList ++ natStr i)
          keywords := r.keywords.map strLower
          resource_types := sortedStrs (detectResources r.iac_code)
          iac_code := r.iac_code
          score := (((r.keywords.map strLower).filter
              (fun kw => isSubstr kw (strLower p))).dedup.length : ℚ) /
            ((max (r.keywords.map strLower).length 1 : Nat) : ℚ) } := by
      simp only [kwEntry, hkE, hmE, Bool.false_eq_true, if_false]
    have hlen : max (r.keywords.map strLower).length 1 = (r.keywords.map strLower).length := by
      have hpos := List.length_pos.mpr hne
      omega
    rw [hlen] at he
    exact ⟨_, buildMatches_mem snippets (strLower p) 0 i r _ hget
      (by rw [Nat.zero_add]; exact he), rfl, rfl⟩
  · intro r₀ rest hsnip hms
    subst hsnip
    refine ⟨?_, rfl⟩
    simp only [keywordStoreRetrieve, hms]
    have hn : 1 ≤ (max 1 k).toNat := by
      have h := le_max_left 1 k
      omega
    simp only [sortBy, insertBy]
    exact take_one_of_le _ hn (kwFallbackEntry r₀)

/-- Witness for C9: one snippet whose keyword `ec2` occurs in the prompt,
and a second store where nothing matches and the fallback fires. -/
theorem C9_keyword_baseline_w :
    (∃ e ∈ buildMatches 0 [recKW] (strLower ("an ec2 instance please").toList),
      e.snippet_id = 0 ∧
      e.score = (((recKW.keywords.map strLower).filter
          (fun kw => isSubstr kw (strLower ("an ec2 instance please").toList))).dedup.length : ℚ) /
        ((recKW.keywords.map strLower).length : ℚ)) ∧
    (keywordStoreRetrieve [recKW] ("nothing relevant").toList (3 : ℤ) = [kwFallbackEntry recKW] ∧
      (kwFallbackEntry recKW).score = 0) :=
  ⟨(C9_keyword_baseline [recKW] (("an ec2 instance please").toList) (3 : ℤ)).1 0 recKW rfl
      (by decide) ⟨("ec2").toList, by decide, by decide⟩,
    (C9_keyword_baseline [recKW] (("nothing relevant").toList) (3 : ℤ)).2 recKW [] rfl
      (by decide)⟩

/-! ## Stability of the descending sort -/

theorem pairwise_lex_insertBy (P : QueryResult → QueryResult → Prop)
    (a : QueryResult) (l : List QueryResult)
    (hl : l.Pairwise (fun x y => y.score ≤ x.score ∧ (x.score = y.score → P x y)))
    (ha : ∀ b ∈ l, P a b) :
    (insertBy resGe a l).Pairwise (fun x y => y.score ≤ x.score ∧
      (x.score = y.score → P x y)) := by
  induction l with
  | nil => simp [insertBy]
  | cons b bs ih =>
    rw [List.pairwise_cons] at hl
    obtain ⟨hb, hbs⟩ := hl
    simp only [insertBy]
    by_cases h : resGe a b
    · rw [if_pos h]
      have hba : b.score ≤ a.score := by simpa [resGe] using h
      refine List.Pairwise.cons ?_ (List.Pairwise.cons hb hbs)
      intro y hy
      refine ⟨?_, fun _ => ha y hy⟩
      rcases List.mem_cons.mp hy with rfl | hy'
      · exact hba
      · exact le_trans (hb y hy').1 hba
    · rw [if_neg h]
      have hab : a.score < b.score := by
        simp only [resGe, decide_eq_true_eq] at h
        exact not_le.mp h
      refine List.Pairwise.cons ?_
        (ih hbs (fun c hc => ha c (List.mem_cons_of_mem b hc)))
      intro y hy
      rcases (mem_insertBy resGe a y bs).mp hy with rfl | hy'
      · exact ⟨le_of_lt hab, fun heq => absurd heq.symm (ne_of_lt hab)⟩
      · exact hb y hy'

theorem pairwise_lex_sortBy (P : QueryResult → QueryResult → Prop)
    (l : List QueryResult) (hl : l.Pairwise P) :
    (sortBy resGe l).Pairwise (fun x y => y.score ≤ x.score ∧
      (x.score = y.score → P x y)) := by
  induction l with
  | nil => simp [sortBy]
  | cons a as ih =>
    rw [List.pairwise_cons] at hl
    exact pairwise_lex_insertBy P a _ (ih hl.2)
      (fun b hb => hl.1 b ((mem_sortBy resGe b as).mp hb))

theorem pairwise_sublist_pairs (l : List Nat) :
    l.Pairwise (fun i j => ([i, j] : List Nat).Sublist l) := by
  induction l with
  | nil => exact List.Pairwise.nil
  | cons c cs ih =>
    refine List.Pairwise.cons ?_ (ih.imp ?_)
    · intro j hj
      exact (List.singleton_sublist.mpr hj).cons₂ c
    · intro i j hij
      exact hij.cons c

theorem getD_snippet_id (s : Store)
    (hwf : ∀ j : Fin s.snippetData.length, (s.snippetData.get j).snippet_id = j.val)
    (i : Nat) : (s.snippetData.getD i (defaultSnippet i)).snippet_id = i := by
  by_cases h : i < s.snippetData.length
  · rw [List.getD_eq_getElem?_getD, List.getElem?_eq_getElem h]
    exact hwf ⟨i, h⟩
  · rw [List.getD_eq_getElem?_getD, List.getElem?_eq_none (by omega)]
    rfl

/-- C7 (amended): equal-score results appear in the candidate-iteration
order: the descending sort is stable, so for any two tied results the
earlier one's id precedes the later one's id in the CPython iteration of
the candidate set — which coincides with 0-based insertion order only when
that iteration happens to be ascending. -/
theorem C7_tie_order_amended (s : Store) (p : Str) (k : ℤ)
    (hwf : ∀ j : Fin s.snippetData.length, (s.snippetData.get j).snippet_id = j.val) :
    (queryBuilt s p k).Pairwise (fun a b => a.score = b.score →
      ([a.snippet_id, b.snippet_id] : List Nat).Sublist
        (pyIterList (candidateIds s (extractPromptKeywords p)
          (detectPromptResources p)))) := by
  simp only [queryBuilt, queryRanked]
  refine List.Pairwise.sublist (List.take_sublist _ _) ?_
  have hpairs := pairwise_sublist_pairs
    (pyIterList (candidateIds s (extractPromptKeywords p) (detectPromptResources p)))
  have hranked := List.Pairwise.map
    (fun i => mkResult s.graph (s.snippetData.getD i (defaultSnippet i))
      (extractPromptKeywords p) (detectPromptResources p))
    (S := fun a b : QueryResult => ([a.snippet_id, b.snippet_id] : List Nat).Sublist
      (pyIterList (candidateIds s (extractPromptKeywords p) (detectPromptResources p))))
    (fun i j hij => by
      show ([(s.snippetData.getD i (defaultSnippet i)).snippet_id,
        (s.snippetData.getD j (defaultSnippet j)).snippet_id] : List Nat).Sublist _
      rw [getD_snippet_id s hwf i, getD_snippet_id s hwf j]
      exact hij) hpairs
  exact (pairwise_lex_sortBy _ _ hranked).imp (fun h => h.2)

/-- Witness for C7 (amended) at a two-snippet store whose snippets tie on
score. -/
theorem C7_tie_order_amended_w :
    (queryBuilt sTwo [] (5 : ℤ)).Pairwise (fun a b => a.score = b.score →
      ([a.snippet_id, b.snippet_id] : List Nat).Sublist
        (pyIterList (candidateIds sTwo (extractPromptKeywords [])
          (detectPromptResources [])))) :=
  C7_tie_order_amended sTwo [] (5 : ℤ) (by decide)

/-! ## The literal one-snippet example -/

theorem rnd_intCast (n : ℤ) : rndHalfEven (n : ℚ) = n := by
  have hf : ⌊(n : ℚ)⌋ = n := Int.floor_intCast n
  simp only [rndHalfEven, hf]
  norm_num

theorem roundTo4_nine_tenths : roundTo 4 (9/10 : ℚ) = 9/10 := by
  have h : (9/10 : ℚ) * 10 ^ 4 = ((9000 : ℤ) : ℚ) := by norm_num
  rw [roundTo, h, rnd_intCast]
  norm_num

theorem kwJaccardC2 :
    jaccardSimilarity (snippetKeywords recC2).toFinset
      (extractPromptKeywords promptC2) = 2/3 := by
  rw [jaccardSimilarity, if_neg (by decide), if_pos (by decide)]
  rw [show ((snippetKeywords recC2).toFinset ∩ extractPromptKeywords promptC2).card = 2
      from by decide]
  rw [show ((snippetKeywords recC2).toFinset ∪ extractPromptKeywords promptC2).card = 3
      from by decide]
  norm_num

theorem kwOverlapC2 :
    overlapScore (snippetKeywords recC2).toFinset
      (extractPromptKeywords promptC2) = 1 := by
  rw [overlapScore, if_neg (by decide)]
  rw [show ((snippetKeywords recC2).toFinset ∩ extractPromptKeywords promptC2).card = 2
      from by decide]
  rw [show (extractPromptKeywords promptC2).card = 2 from by decide]
  norm_num

theorem resJaccardC2 :
    jaccardSimilarity (extractResourceTypes recC2.iac_code).toFinset
      (detectPromptResources promptC2) = 1 := by
  rw [jaccardSimilarity, if_neg (by decide), if_pos (by decide)]
  rw [show ((extractResourceTypes recC2.iac_code).toFinset ∩
      detectPromptResources promptC2).card = 1 from by decide]
  rw [show ((extractResourceTypes recC2.iac_code).toFinset ∪
      detectPromptResources promptC2).card = 1 from by decide]
  norm_num

theorem resOverlapC2 :
    overlapScore (extractResourceTypes recC2.iac_code).toFinset
      (detectPromptResources promptC2) = 1 := by
  rw [overlapScore, if_neg (by decide)]
  rw [show ((extractResourceTypes recC2.iac_code).toFinset ∩
      detectPromptResources promptC2).card = 1 from by decide]
  rw [show (detectPromptResources promptC2).card = 1 from by decide]
  norm_num

theorem connC2 :
    connectivityScore sC2.graph 0 (extractPromptKeywords promptC2)
      (detectPromptResources promptC2) = 1 := by
  simp only [connectivityScore]
  rw [if_neg (by decide), if_neg (by decide)]
  rw [show ((extractPromptKeywords promptC2).filter
      (fun w => Node.kw w ∈ neighborsOf sC2.graph (Node.snip 0))).card = 2 from by decide]
  rw [show ((detectPromptResources promptC2).filter
      (fun t => Node.res t ∈ neighborsOf sC2.graph (Node.snip 0))).card = 1 from by decide]
  rw [show (extractPromptKeywords promptC2).card + (detectPromptResources promptC2).card = 3
      from by decide]
  norm_num

theorem totalC2 :
    totalScore sC2.graph (buildSnippet 0 recC2) (extractPromptKeywords promptC2)
      (detectPromptResources promptC2) = 9/10 := by
  simp only [totalScore, buildSnippet]
  rw [kwJaccardC2, kwOverlapC2, resJaccardC2, resOverlapC2, connC2]
  norm_num

theorem queryC2 :
    (queryBuilt sC2 promptC2 (3 : ℤ)).map (fun e => (e.snippet_id, e.score)) =
      [(0, 9/10)] := by
  simp only [queryBuilt, queryRanked]
  rw [show candidateIds sC2 (extractPromptKeywords promptC2)
      (detectPromptResources promptC2) = {0} from by decide]
  rw [show pyIterList ({0} : Finset Nat) = [0] from by decide]
  simp only [List.map_cons, List.map_nil, sortBy, insertBy]
  rw [show ((max 1 (3 : ℤ)).toNat) = 3 from by decide]
  rw [show sC2.snippetData.getD 0 (defaultSnippet 0) = buildSnippet 0 recC2 from by decide]
  simp only [List.take, mkResult, List.map_cons, List.map_nil]
  rw [totalC2, roundTo4_nine_tenths]
  rfl

/-- C2 counterexample: for the literal example (one snippet with keywords
s3/bucket/versioning, prompt "Create an S3 bucket with versioning") the
token `s3` is NOT among the extracted prompt keywords — the tokenizer
drops tokens of length ≤ 2 — and the keyword Jaccard sub-score is not 1. -/
theorem C2_literal_example_cex :
    ("s3").toList ∉ extractPromptKeywords promptC2 ∧
    jaccardSimilarity (snippetKeywords recC2).toFinset
      (extractPromptKeywords promptC2) ≠ 1 := by
  refine ⟨by decide, ?_⟩
  rw [kwJaccardC2]
  norm_num

/-- C2 (amended): for the literal example the extracted prompt keywords
are exactly bucket and versioning (s3 is dropped by the length filter), the
detected resources contain aws_s3_bucket, the keyword Jaccard is 2/3 and
the resource Jaccard 1, the total score is 0.9 ≥ 0.8, and the snippet
ranks first (the whole result list is this one snippet at score 0.9). -/
theorem C2_literal_example_amended :
    ("bucket").toList ∈ extractPromptKeywords promptC2 ∧
    ("versioning").toList ∈ extractPromptKeywords promptC2 ∧
    ("s3").toList ∉ extractPromptKeywords promptC2 ∧
    ("aws_s3_bucket").toList ∈ detectPromptResources promptC2 ∧
    jaccardSimilarity (snippetKeywords recC2).toFinset
      (extractPromptKeywords promptC2) = 2/3 ∧
    jaccardSimilarity (extractResourceTypes recC2.iac_code).toFinset
      (detectPromptResources promptC2) = 1 ∧
    totalScore sC2.graph (buildSnippet 0 recC2) (extractPromptKeywords promptC2)
      (detectPromptResources promptC2) = 9/10 ∧
    (4/5 : ℚ) ≤ 9/10 ∧
    (queryBuilt sC2 promptC2 (3 : ℤ)).map (fun e => (e.snippet_id, e.score)) =
      [(0, 9/10)] :=
  ⟨by decide, by decide, by decide, by decide, kwJaccardC2, resJaccardC2, totalC2,
    by norm_num, queryC2⟩

/-! ## The hash-order tie instance -/

theorem roundTo4_seven_tenths : roundTo 4 (7/10 : ℚ) = 7/10 := by
  have h : (7/10 : ℚ) * 10 ^ 4 = ((7000 : ℤ) : ℚ) := by norm_num
  rw [roundTo, h, rnd_intCast]
  norm_num

theorem kwJTie :
    jaccardSimilarity (snippetKeywords recTie).toFinset
      (extractPromptKeywords pTie) = 1 := by
  rw [jaccardSimilarity, if_neg (by decide), if_pos (by decide)]
  rw [show ((snippetKeywords recTie).toFinset ∩ extractPromptKeywords pTie).card = 1
      from by decide]
  rw [show ((snippetKeywords recTie).toFinset ∪ extractPromptKeywords pTie).card = 1
      from by decide]
  norm_num

theorem kwOTie :
    overlapScore (snippetKeywords recTie).toFinset (extractPromptKeywords pTie) = 1 := by
  rw [overlapScore, if_neg (by decide)]
  rw [show ((snippetKeywords recTie).toFinset ∩ extractPromptKeywords pTie).card = 1
      from by decide]
  rw [show (extractPromptKeywords pTie).card = 1 from by decide]
  norm_num

theorem resJTie :
    jaccardSimilarity (extractResourceTypes recTie.iac_code).toFinset
      (detectPromptResources pTie) = 0 := by
  rw [jaccardSimilarity, if_pos (by decide)]

theorem resOTie :
    overlapScore (extractResourceTypes recTie.iac_code).toFinset
      (detectPromptResources pTie) = 0 := by
  rw [overlapScore, if_pos (by decide)]

theorem connTie5 :
    connectivityScore sC7.graph 5 (extractPromptKeywords pTie)
      (detectPromptResources pTie) = 1 := by
  simp only [connectivityScore]
  rw [if_neg (by decide), if_neg (by decide)]
  rw [show ((extractPromptKeywords pTie).filter
      (fun w => Node.kw w ∈ neighborsOf sC7.graph (Node.snip 5))).card = 1 from by decide]
  rw [show ((detectPromptResources pTie).filter
      (fun t => Node.res t ∈ neighborsOf sC7.graph (Node.snip 5))).card = 0 from by decide]
  rw [show (extractPromptKeywords pTie).card + (detectPromptResources pTie).card = 1
      from by decide]
  norm_num

theorem connTie12 :
    connectivityScore sC7.graph 12 (extractPromptKeywords pTie)
      (detectPromptResources pTie) = 1 := by
  simp only [connectivityScore]
  rw [if_neg (by decide), if_neg (by decide)]
  rw [show ((extractPromptKeywords pTie).filter
      (fun w => Node.kw w ∈ neighborsOf sC7.graph (Node.snip 12))).card = 1 from by decide]
  rw [show ((detectPromptResources pTie).filter
      (fun t => Node.res t ∈ neighborsOf sC7.graph (Node.snip 12))).card = 0 from by decide]
  rw [show (extractPromptKeywords pTie).card + (detectPromptResources pTie).card = 1
      from by decide]
  norm_num

theorem totTie5 :
    totalScore sC7.graph (buildSnippet 5 recTie) (extractPromptKeywords pTie)
      (detectPromptResources pTie) = 7/10 := by
  simp only [totalScore, buildSnippet]
  rw [kwJTie, kwOTie, resJTie, resOTie, connTie5]
  norm_num

theorem totTie12 :
    totalScore sC7.graph (buildSnippet 12 recTie) (extractPromptKeywords pTie)
      (detectPromptResources pTie) = 7/10 := by
  simp only [totalScore, buildSnippet]
  rw [kwJTie, kwOTie, resJTie, resOTie, connTie12]
  norm_num

theorem scoreTie5 :
    (mkResult sC7.graph (buildSnippet 5 recTie) (extractPromptKeywords pTie)
      (detectPromptResources pTie)).score = 7/10 := by
  show roundTo 4 (totalScore sC7.graph (buildSnippet 5 recTie)
    (extractPromptKeywords pTie) (detectPromptResources pTie)) = 7/10
  rw [totTie5, roundTo4_seven_tenths]

theorem scoreTie12 :
    (mkResult sC7.graph (buildSnippet 12 recTie) (extractPromptKeywords pTie)
      (detectPromptResources pTie)).score = 7/10 := by
  show roundTo 4 (totalScore sC7.graph (buildSnippet 12 recTie)
    (extractPromptKeywords pTie) (detectPromptResources pTie)) = 7/10
  rw [totTie12, roundTo4_seven_tenths]

theorem queryC7 :
    queryBuilt sC7 pTie (3 : ℤ) =
      [mkResult sC7.graph (buildSnippet 12 recTie) (extractPromptKeywords pTie)
        (detectPromptResources pTie),
       mkResult sC7.graph (buildSnippet 5 recTie) (extractPromptKeywords pTie)
        (detectPromptResources pTie)] := by
  simp only [queryBuilt, queryRanked]
  rw [show candidateIds sC7 (extractPromptKeywords pTie) (detectPromptResources pTie) =
    ({5, 12} : Finset Nat) from by decide]
  rw [show pyIterList ({5, 12} : Finset Nat) = [12, 5] from by decide]
  simp only [List.map_cons, List.map_nil]
  rw [show sC7.snippetData.getD 12 (defaultSnippet 12) = buildSnippet 12 recTie
    from by decide]
  rw [show sC7.snippetData.getD 5 (defaultSnippet 5) = buildSnippet 5 recTie
    from by decide]
  have hge : resGe
      (mkResult sC7.graph (buildSnippet 12 recTie) (extractPromptKeywords pTie)
        (detectPromptResources pTie))
      (mkResult sC7.graph (buildSnippet 5 recTie) (extractPromptKeywords pTie)
        (detectPromptResources pTie)) = true := by
    simp only [resGe, decide_eq_true_eq]
    rw [scoreTie5, scoreTie12]
  simp only [sortBy, insertBy, hge, if_true]
  rw [show ((max 1 (3 : ℤ)).toNat) = 3 from by decide]
  rfl

/-- C7 counterexample: with candidate set `{5, 12}` the CPython set
iterates `[12, 5]` (12 mod 8 = 4 precedes slot 5 in the size-8 table), so
the two equal-score results appear with ids 12 before 5 — the result list
violates ascending 0-based insertion order on ties. -/
theorem C7_tie_order_cex :
    ¬ (queryBuilt sC7 pTie (3 : ℤ)).Pairwise
      (fun a b => a.score = b.score → a.snippet_id < b.snippet_id) := by
  rw [queryC7]
  intro hpw
  have hrel := (List.pairwise_cons.mp hpw).1 _ (List.mem_cons_self _ _)
  have hsc : (mkResult sC7.graph (buildSnippet 12 recTie) (extractPromptKeywords pTie)
      (detectPromptResources pTie)).score =
    (mkResult sC7.graph (buildSnippet 5 recTie) (extractPromptKeywords pTie)
      (detectPromptResources pTie)).score := by
    rw [scoreTie5, scoreTie12]
  have hlt := hrel hsc
  have h12 : (mkResult sC7.graph (buildSnippet 12 recTie) (extractPromptKeywords pTie)
      (detectPromptResources pTie)).snippet_id = 12 := rfl
  have h5 : (mkResult sC7.graph (buildSnippet 5 recTie) (extractPromptKeywords pTie)
      (detectPromptResources pTie)).snippet_id = 5 := rfl
  rw [h12, h5] at hlt
  omega

end IacGen
